import Mathlib

/-!
Verification development for the WXPlot data-acquisition subsystem
(wxplotjs: `datafetcher.js`, `dataview.js`, `datablock.js`, `datasegment.js`,
`interval.js`).

Times are Unix milliseconds, modelled as `ℤ` (exact integers); quantities that
the JavaScript computes with fractional division (aggregate intervals, sample
values, display times) are modelled as `ℚ` with exact arithmetic.  The
JavaScript `null`/`undefined`/array-hole data marker is modelled as `none` in
`Option ℚ`.
-/

/-- Model of `interval.js`: an interval of time with integer-millisecond
endpoints.  The source field `end` is a Lean keyword, so it is named `stop`
here.  `equals` in the source is structural equality, which is definitional
equality of this structure. -/
structure Interval' where
  start : ℤ
  stop : ℤ
deriving DecidableEq

/-- The per-trace configuration object passed to `addTrace` (see `plot.js`),
restricted to the fields the data subsystem reads.  `offset` is optional in
the source (`'offset' in this._dataParams`), hence `Option`. -/
structure DataParams where
  archiveIntervalMinutes : ℤ
  minDataPoints : ℤ
  offset : Option ℤ
deriving DecidableEq

/-- Model of `DataFetcher._segmentLength` (`datafetcher.js` lines 122-132) and
the identical `DataView.segmentLength` / `_segmentLength` (`dataview.js`):

```js
const minSegment = archiveIntervalMinutes * 60000 * pointsPerSegment; // pointsPerSegment = minDataPoints * 2
const delta = dataInterval.end - dataInterval.start;
let exponent = Math.log(delta / minSegment) / Math.log(2);
if (exponent < 0) { exponent = 0; }
return minSegment * Math.pow(2, Math.ceil(exponent));
```

The source's clamp-then-ceil of the base-2 real logarithm is
`(max 0 ⌈Real.logb 2 (delta / minSegment)⌉)` (the ceiling commutes with the
clamp at the integer 0), and `⌈Real.logb 2 q⌉ = Int.clog 2 q` for `0 < q`,
which keeps this definition executable; theorem `segmentLength_logb` below
proves the equality with the source's real-logarithm formula. -/
def segmentLength (p : DataParams) (i : Interval') : ℤ :=
  let pointsPerSegment := p.minDataPoints * 2
  let minSegment := p.archiveIntervalMinutes * 60000 * pointsPerSegment
  let delta := i.stop - i.start
  minSegment * 2 ^ (max 0 (Int.clog 2 ((delta : ℚ) / (minSegment : ℚ)))).toNat

/-- Model of `DataFetcher._getSectionInterval` (`datafetcher.js` lines
108-117), identical to the geometry in `DataView.updateDataBlock` /
`_updateDataBlock`:

```js
const startOfThirdSegment = Math.floor(dataInterval.start / _segmentLength) * _segmentLength;
const startOfFirstSegment = startOfThirdSegment - 2*_segmentLength;
const endOflastSegment = startOfFirstSegment + 4*_segmentLength;
return new Interval(startOfFirstSegment, endOflastSegment);
``` -/
def getSectionInterval (p : DataParams) (i : Interval') : Interval' :=
  let L := segmentLength p i
  let startOfThirdSegment := ⌊(i.start : ℚ) / (L : ℚ)⌋ * L
  let startOfFirstSegment := startOfThirdSegment - 2 * L
  ⟨startOfFirstSegment, startOfFirstSegment + 4 * L⟩

/-- The minimum segment length of a `DataParams`, as computed inside
`_segmentLength`: `archiveIntervalMinutes * 60000 * (minDataPoints * 2)`. -/
def minSegmentOf (p : DataParams) : ℤ :=
  p.archiveIntervalMinutes * 60000 * (p.minDataPoints * 2)

/-! ## Segment cache (`DataFetcher._fetchSegment`, `datafetcher.js` lines 168-222)

The cache is an array of `{interval, segment}` entries keyed by the interval
(`entry.interval.equals(interval)`); we model the list of keys.  The source
first scans the cache with the caller's (nominal) interval; on a miss it
builds the request — mutating the interval object in place when `dataParams`
has an `offset` (`interval.start -= offset; interval.end -= offset`) — then
trims the cache (`slice(50)` when `length === 100`) and pushes the entry whose
key is that same, now mutated, interval object.  The returned `Bool` records
whether an HTTP GET was issued (cache miss). -/
def fetchSegment (offset : Option ℤ) (cache : List Interval') (i : Interval') :
    List Interval' × Bool :=
  if i ∈ cache then (cache, false)
  else
    let key : Interval' :=
      match offset with
      | some o => ⟨i.start - o, i.stop - o⟩
      | none => i
    ((if cache.length = 100 then cache.drop 50 else cache) ++ [key], true)

/-- Folding `fetchSegment` over a list of requested segment intervals,
threading the cache. -/
def fetchRun (offset : Option ℤ) (cache : List Interval') (is : List Interval') :
    List Interval' :=
  is.foldl (fun c i => (fetchSegment offset c i).1) cache

/-! ## Short-response tail padding (`datafetcher.js` lines 191-208)

On a successful response the handler does

```js
let data = JSON.parse(xhr.responseText).values;
const pointsPerSegment = Math.floor((interval.end - interval.start) / aggregateInterval);
data.length = pointsPerSegment;
resolve(data);
```

In JavaScript, assigning `length` truncates the array or extends it with
holes; holes, `undefined` and `null` are all the "no data" marker, `none`
here.  An errored request rejects (`Except.error`). -/
def setLength (values : List (Option ℚ)) (n : ℕ) : List (Option ℚ) :=
  values.take n ++ List.replicate (n - values.length) none

/-- The expected number of points of a segment:
`Math.floor((interval.end - interval.start) / aggregateInterval)`. -/
def expectedPoints (i : Interval') (aggregateInterval : ℚ) : ℤ :=
  ⌊((i.stop - i.start : ℤ) : ℚ) / aggregateInterval⌋

/-- The response handler of `_fetchSegment`: rejects on error, otherwise
resolves with the values adjusted to the expected length. -/
def assembleSegment (i : Interval') (aggregateInterval : ℚ)
    (response : Except Unit (List (Option ℚ))) : Except Unit (List (Option ℚ)) :=
  match response with
  | Except.error e => Except.error e
  | Except.ok values => Except.ok (setLength values (expectedPoints i aggregateInterval).toNat)

/-! ## Display-window assembly (`DataView.cacheData`, `dataview.js` lines
30-77; identical to `_cacheData` of the underscore-named copy)

`block.data` is an array of `[time, value]` pairs; `value` may be `null`,
`undefined` or a hole (`none` here).  The requested interval endpoints come
from the plot scale and may be fractional, hence `ℚ`. -/
structure QInterval where
  start : ℚ
  stop : ℚ
deriving DecidableEq

/-- The fields of a `DataBlock` (`datablock.js`) that `cacheData` reads:
`block.interval.start`, `block.aggregateInterval` and `block.data`. -/
structure DataBlock where
  blockStart : ℚ
  aggregateInterval : ℚ
  data : List (ℚ × Option ℚ)
deriving DecidableEq

/-- JavaScript `Array.prototype.slice(a, b)`: negative indices count from the
end, then the window is clamped to the array. -/
def jsSliceIndex (len : ℕ) (i : ℤ) : ℕ :=
  if i < 0 then (len + i).toNat else min i.toNat len

/-- JavaScript `array.slice(a, b)`. -/
def jsSlice (l : List α) (a b : ℤ) : List α :=
  (l.take (jsSliceIndex l.length b)).drop (jsSliceIndex l.length a)

/-- JavaScript `array[i]`: `undefined` (`none`) when out of range, including
negative indices. -/
def jsGet (l : List α) (i : ℤ) : Option α :=
  if 0 ≤ i then l.get? i.toNat else none

/-- `let firstIndex = Math.ceil((interval.start - block.interval.start) /
block.aggregateInterval); if (firstIndex < 0) firstIndex = 0;` -/
def firstIndexOf (b : DataBlock) (req : QInterval) : ℤ :=
  max 0 ⌈(req.start - b.blockStart) / b.aggregateInterval⌉

/-- `const lastIndex = Math.floor((interval.end - block.interval.start) /
block.aggregateInterval);` -/
def lastIndexOf (b : DataBlock) (req : QInterval) : ℤ :=
  ⌊(req.stop - b.blockStart) / b.aggregateInterval⌋

/-- `const data = block.data.slice(firstIndex, lastIndex + 1);` -/
def slicedData (b : DataBlock) (req : QInterval) : List (ℚ × Option ℚ) :=
  jsSlice b.data (firstIndexOf b req) (lastIndexOf b req + 1)

/-- `const firstBefore = (firstIndex === 0 || data.length === 0) ? null :
block.data[firstIndex - 1];` -/
def firstBeforeOf (b : DataBlock) (req : QInterval) : Option (ℚ × Option ℚ) :=
  if firstIndexOf b req = 0 ∨ slicedData b req = [] then none
  else jsGet b.data (firstIndexOf b req - 1)

/-- `const firstAfter = (lastIndex === block.data.length - 1 || data.length
=== 0) ? null : block.data[lastIndex + 1];` -/
def firstAfterOf (b : DataBlock) (req : QInterval) : Option (ℚ × Option ℚ) :=
  if lastIndexOf b req = (b.data.length : ℤ) - 1 ∨ slicedData b req = [] then none
  else jsGet b.data (lastIndexOf b req + 1)

/-- The left synthetic boundary point:

```js
let first = data[0];
if (firstBefore && first[1] && firstBefore[1]) {
  const interval = first[0] - firstBefore[0];
  const left = first[1] - ((first[1] - firstBefore[1]) / interval * (first[0] - start));
  displayData.push([start, left]);
}
```

`first[1] && firstBefore[1]` are JavaScript truthiness tests: they fail for
`null`/`undefined` (`none`) and for the numeric value `0`. -/
def leftPointOf (b : DataBlock) (req : QInterval) : List (ℚ × Option ℚ) :=
  match firstBeforeOf b req, (slicedData b req).head? with
  | some (t0, some v0), some (t1, some v1) =>
    if v1 ≠ 0 ∧ v0 ≠ 0 then
      [(req.start, some (v1 - (v1 - v0) / (t1 - t0) * (t1 - req.start)))]
    else []
  | _, _ => []

/-- The right synthetic boundary point:

```js
let last = data[data.length - 1];
if (firstAfter && last[1] && firstAfter[1]) {
  const interval = firstAfter[0] - last[0];
  const right = last[1] + ((firstAfter[1] - last[1]) / interval * (end - last[0]));
  displayData.push([end, right]);
}
``` -/
def rightPointOf (b : DataBlock) (req : QInterval) : List (ℚ × Option ℚ) :=
  match firstAfterOf b req, (slicedData b req).getLast? with
  | some (ta, some va), some (tl, some vl) =>
    if vl ≠ 0 ∧ va ≠ 0 then
      [(req.stop, some (vl + (va - vl) / (ta - tl) * (req.stop - tl)))]
    else []
  | _, _ => []

/-- The `displayData` array assembled by `cacheData`: the optional left
boundary point, the slice, then the optional right boundary point. -/
def displayDataOf (b : DataBlock) (req : QInterval) : List (ℚ × Option ℚ) :=
  leftPointOf b req ++ slicedData b req ++ rightPointOf b req

/-- Example block data (all samples present and non-zero). -/
def dataEx8 : List (ℚ × Option ℚ) := [(0, some 2), (1, some 5), (2, some 6), (3, some 7)]

/-- Example block over `dataEx8` with aggregate interval 1 ms. -/
def blockEx8 : DataBlock := ⟨0, 1, dataEx8⟩

/-- Example requested window strictly inside the block. -/
def reqEx8 : QInterval := ⟨1/2, 5/2⟩

/-- Example block data whose sample before the window has the value 0. -/
def dataEx8c : List (ℚ × Option ℚ) := [(0, some 0), (1, some 5), (2, some 6), (3, some 7)]

/-- Example block over `dataEx8c`. -/
def blockEx8c : DataBlock := ⟨0, 1, dataEx8c⟩

/-- Example block data for the zero-truthiness witness. -/
def dataEx9 : List (ℚ × Option ℚ) := [(0, some 0), (1, some 4), (2, some 6), (3, some 8)]

/-- Example block over `dataEx9`. -/
def blockEx9 : DataBlock := ⟨0, 1, dataEx9⟩

/-! ## The `DataFetcher` section state machine (`datafetcher.js` lines 14-103)

Single-threaded event-loop semantics: the events are `request target` (a
`getWideData`/`_updateSection` call whose computed
`_getSectionInterval(dataInterval)` is `target`), `fire` (the armed
100 ms debounce timer fires, starting `_fetchSection`), and `complete t` (the
`_fetchSection(t)` promise resolves, running
`section => { this._section = section; resolve(section); }`).  A section's
loaded data array is identified by the section interval it was fetched for. -/
structure DFState where
  sectionInterval : Option Interval'
  sectionData : Option Interval'
  timer : Option Interval'
  inflight : List Interval'
deriving DecidableEq

/-- The initial `DataFetcher` state set by the constructor. -/
def dfInit : DFState := ⟨none, none, none, []⟩

inductive DFEvent where
  | request : Interval' → DFEvent
  | fire : DFEvent
  | complete : Interval' → DFEvent
deriving DecidableEq

/-- One event of the `DataFetcher` machine.

* `request target` models `_updateSection` (lines 73-103): if
  `this._sectionInterval` already equals the target, return with nothing
  changed; otherwise cancel any armed timer (`clearTimeout`), record the new
  target, null out `this._section`, and arm a new timer for the target.
* `fire` models the `setTimeout` callback (lines 95-101): the armed timer
  fires, clears `_timeoutID` and starts `_fetchSection(sectionInterval)`.
* `complete t` models the resolution of an outstanding
  `_fetchSection(t)` promise: its `.then` handler assigns `this._section =
  section` unconditionally, with no check that `t` is still the pending
  target. -/
def dfStep (s : DFState) (e : DFEvent) : DFState :=
  match e with
  | DFEvent.request target =>
    if s.sectionInterval = some target then s
    else
      { sectionInterval := some target, sectionData := none,
        timer := some target, inflight := s.inflight }
  | DFEvent.fire =>
    match s.timer with
    | none => s
    | some t => { s with timer := none, inflight := t :: s.inflight }
  | DFEvent.complete t =>
    if t ∈ s.inflight then
      { s with inflight := s.inflight.erase t, sectionData := some t }
    else s

/-- Run the `DataFetcher` machine over a list of events. -/
def dfRun (s : DFState) (es : List DFEvent) : DFState :=
  es.foldl dfStep s

/-! ## The `DataView` data-block state machine (`dataview.js` lines 89-125)

`updateDataBlock` creates a fresh `DataBlock` object per accepted request, so
block identity (JavaScript `!==`) is finer than interval equality
(`isSameAs`); blocks are modelled as a generation counter paired with the
block interval. -/
structure DVState where
  currentDataBlock : Option (ℕ × Interval')
  nextDataBlock : Option (ℕ × Interval')
  timer : Option (ℕ × Interval')
  loading : List (ℕ × Interval')
  gen : ℕ
deriving DecidableEq

/-- The initial `DataView` state set by the constructor. -/
def dvInit : DVState := ⟨none, none, none, [], 0⟩

inductive DVEvent where
  | request : Interval' → DVEvent
  | fire : DVEvent
  | complete : ℕ × Interval' → DVEvent
deriving DecidableEq

/-- One event of the `DataView` machine.

* `request i` models `updateDataBlock` with computed target block interval
  `i`: if the target `isSameAs` the current or the next data block, return;
  otherwise cancel any armed timer, arm a new timer for a fresh target object
  and set `nextDataBlock` to it.
* `fire` models the `setTimeout` callback calling `target.load(...)`.
* `complete b` models the completion callback of `b`'s load:
  `if (this.nextDataBlock !== target) return; this.currentDataBlock = target;
  this.nextDataBlock = null;` — the identity check that drops superseded
  completions. -/
def dvStep (s : DVState) (e : DVEvent) : DVState :=
  match e with
  | DVEvent.request i =>
    if s.currentDataBlock.map Prod.snd = some i
        ∨ s.nextDataBlock.map Prod.snd = some i then s
    else
      { currentDataBlock := s.currentDataBlock, nextDataBlock := some (s.gen, i),
        timer := some (s.gen, i), loading := s.loading, gen := s.gen + 1 }
  | DVEvent.fire =>
    match s.timer with
    | none => s
    | some b => { s with timer := none, loading := b :: s.loading }
  | DVEvent.complete b =>
    if b ∈ s.loading then
      let s' := { s with loading := s.loading.erase b }
      if s'.nextDataBlock = some b then
        { s' with currentDataBlock := some b, nextDataBlock := none }
      else s'
    else s

/-- Run the `DataView` machine over a list of events. -/
def dvRun (s : DVState) (es : List DVEvent) : DVState :=
  es.foldl dvStep s

theorem segmentLength_eq (p : DataParams) (i : Interval') :
    segmentLength p i
      = minSegmentOf p
        * 2 ^ (max 0 (Int.clog 2 ((i.stop - i.start : ℚ) / (minSegmentOf p : ℚ)))).toNat := by
  simp only [segmentLength, minSegmentOf]
  norm_num

theorem minSegmentOf_pos (p : DataParams)
    (h1 : 0 < p.archiveIntervalMinutes) (h2 : 0 < p.minDataPoints) :
    0 < minSegmentOf p := by
  have : (0:ℤ) < p.minDataPoints * 2 := by positivity
  have : (0:ℤ) < p.archiveIntervalMinutes * 60000 := by positivity
  simp only [minSegmentOf]
  nlinarith

theorem segmentLength_pos (p : DataParams) (i : Interval')
    (h1 : 0 < p.archiveIntervalMinutes) (h2 : 0 < p.minDataPoints) :
    0 < segmentLength p i := by
  rw [segmentLength_eq]
  have hm := minSegmentOf_pos p h1 h2
  positivity

/-! ## Resolution selection and section geometry -/

theorem int_clog_two_ratCast (q : ℚ) (hq : 0 < q) :
    Int.clog 2 ((q : ℝ)) = Int.clog 2 q := by
  have hqR : (0:ℝ) < (q:ℝ) := by exact_mod_cast hq
  apply le_antisymm
  · rw [← @Int.le_zpow_iff_clog_le ℝ _ _ 2 (by norm_num) (Int.clog 2 q) ((q:ℝ)) hqR]
    have h := (@Int.le_zpow_iff_clog_le ℚ _ _ 2 (by norm_num) (Int.clog 2 q) q hq).mpr le_rfl
    calc ((q:ℝ)) ≤ (((((2:ℕ):ℚ)) ^ (Int.clog 2 q) : ℚ) : ℝ) := by exact_mod_cast h
      _ = ((2:ℕ):ℝ) ^ (Int.clog 2 q) := by
        rw [Rat.cast_zpow]
        norm_num
  · rw [← @Int.le_zpow_iff_clog_le ℚ _ _ 2 (by norm_num) (Int.clog 2 ((q:ℝ))) q hq]
    have h := (@Int.le_zpow_iff_clog_le ℝ _ _ 2 (by norm_num) (Int.clog 2 ((q:ℝ)))
      ((q:ℝ)) hqR).mpr le_rfl
    have h' : ((q:ℝ)) ≤ (((((2:ℕ):ℚ)) ^ (Int.clog 2 ((q:ℝ))) : ℚ) : ℝ) := by
      calc ((q:ℝ)) ≤ ((2:ℕ):ℝ) ^ (Int.clog 2 ((q:ℝ))) := h
        _ = (((((2:ℕ):ℚ)) ^ (Int.clog 2 ((q:ℝ))) : ℚ) : ℝ) := by
          rw [Rat.cast_zpow]
          norm_num
    exact_mod_cast h'

/-- The computable `segmentLength` equals the source's real-logarithm formula:
`minSegment * 2 ^ ceil(clamped log2(delta / minSegment))`, with the clamp
commuted past the ceiling. -/
theorem segmentLength_logb (p : DataParams) (i : Interval')
    (h1 : 0 < p.archiveIntervalMinutes) (h2 : 0 < p.minDataPoints)
    (h3 : i.start < i.stop) :
    (segmentLength p i : ℝ)
      = (minSegmentOf p : ℝ)
        * (2:ℝ) ^ (max 0 ⌈Real.logb 2 ((i.stop - i.start : ℝ) / (minSegmentOf p : ℝ))⌉) := by
  have hm := minSegmentOf_pos p h1 h2
  have hd : (0:ℤ) < i.stop - i.start := by omega
  have hq : (0:ℚ) < (i.stop - i.start : ℚ) / (minSegmentOf p : ℚ) := by
    apply div_pos
    · exact_mod_cast hd
    · exact_mod_cast hm
  have hcast : ((i.stop - i.start : ℝ) / (minSegmentOf p : ℝ))
      = (((i.stop - i.start : ℚ) / (minSegmentOf p : ℚ) : ℚ) : ℝ) := by
    push_cast
    ring
  have hceil : ⌈Real.logb 2 ((i.stop - i.start : ℝ) / (minSegmentOf p : ℝ))⌉
      = Int.clog 2 ((i.stop - i.start : ℚ) / (minSegmentOf p : ℚ)) := by
    rw [hcast]
    rw [show (2:ℝ) = ((2:ℕ):ℝ) by norm_num]
    rw [Real.ceil_logb_natCast (le_of_lt (by exact_mod_cast hq))]
    exact int_clog_two_ratCast _ hq
  rw [hceil, segmentLength_eq]
  have hnn : 0 ≤ max 0 (Int.clog 2 ((i.stop - i.start : ℚ) / (minSegmentOf p : ℚ))) :=
    le_max_left _ _
  have hpow : ((2:ℝ)) ^ (max 0 (Int.clog 2 ((i.stop - i.start : ℚ) / (minSegmentOf p : ℚ))))
      = (2:ℝ)
        ^ (max 0 (Int.clog 2 ((i.stop - i.start : ℚ) / (minSegmentOf p : ℚ)))).toNat := by
    rw [← zpow_natCast (2:ℝ)
        (max 0 (Int.clog 2 ((i.stop - i.start : ℚ) / (minSegmentOf p : ℚ)))).toNat,
      Int.toNat_of_nonneg hnn]
  rw [hpow]
  push_cast
  ring

/-- C4: Resolution selection: for every interval and DataParams, segmentLength
returns `minSegment * 2 ^ max(0, ceil(log2((end-start)/minSegment)))` with
`minSegment = archiveIntervalMinutes * 60000 * (minDataPoints * 2)`; and for
`archiveIntervalMinutes = 5`, `minDataPoints = 25`, an interval of length
60,000,000 ms yields `segmentLength = 60,000,000 ms`. -/
theorem c4_resolution_selection (p : DataParams) (i : Interval')
    (h1 : 0 < p.archiveIntervalMinutes) (h2 : 0 < p.minDataPoints)
    (h3 : i.start < i.stop) :
    (segmentLength p i : ℝ)
      = ((p.archiveIntervalMinutes * 60000 * (p.minDataPoints * 2) : ℤ) : ℝ)
        * (2:ℝ)
          ^ (max 0 ⌈Real.logb 2 ((i.stop - i.start : ℝ)
              / ((p.archiveIntervalMinutes * 60000 * (p.minDataPoints * 2) : ℤ) : ℝ))⌉)
    ∧ segmentLength ⟨5, 25, none⟩ ⟨0, 60000000⟩ = 60000000 := by
  constructor
  · exact segmentLength_logb p i h1 h2 h3
  · rw [segmentLength_eq]
    norm_num [minSegmentOf]
    rw [show Nat.clog 2 4 = 2 from by
      rw [show (4:ℕ) = 2 ^ 2 by norm_num]
      exact Nat.clog_pow 2 2 (by norm_num)]
    norm_num

/-- Witness for `c4_resolution_selection` at `archiveIntervalMinutes = 5`,
`minDataPoints = 25`, interval `[0, 60000000)`. -/
theorem c4_resolution_selection_witness :
    (0:ℤ) < 5 ∧ (0:ℤ) < 25 ∧ (0:ℤ) < 60000000
    ∧ ((segmentLength ⟨5, 25, none⟩ ⟨0, 60000000⟩ : ℝ)
        = (((5 * 60000 * (25 * 2) : ℤ)) : ℝ)
          * (2:ℝ)
            ^ (max 0 ⌈Real.logb 2 (((60000000 : ℤ) - (0:ℤ) : ℝ)
                / (((5 * 60000 * (25 * 2) : ℤ)) : ℝ))⌉)
      ∧ segmentLength ⟨5, 25, none⟩ ⟨0, 60000000⟩ = 60000000) :=
  ⟨by norm_num, by norm_num, by norm_num,
    c4_resolution_selection ⟨5, 25, none⟩ ⟨0, 60000000⟩ (by norm_num) (by norm_num)
      (by norm_num)⟩

/-- C3: Section geometry: the section interval is
`[floor(start/L)*L - 2L, floor(start/L)*L - 2L + 4L)` for `L` the segment
length; the section start is an integer multiple of `L`, the section spans
exactly 4 contiguous segments, and the requested start lies within the third
segment (two full segments of margin precede it). -/
theorem c3_section_geometry (p : DataParams) (i : Interval')
    (h1 : 0 < p.archiveIntervalMinutes) (h2 : 0 < p.minDataPoints) :
    (getSectionInterval p i).start
        = ⌊(i.start : ℚ) / ((segmentLength p i : ℤ) : ℚ)⌋ * segmentLength p i
          - 2 * segmentLength p i
    ∧ (getSectionInterval p i).stop
        = (getSectionInterval p i).start + 4 * segmentLength p i
    ∧ (∃ k : ℤ, (getSectionInterval p i).start = k * segmentLength p i)
    ∧ (getSectionInterval p i).start + 2 * segmentLength p i ≤ i.start
    ∧ i.start < (getSectionInterval p i).start + 3 * segmentLength p i := by
  have hL : 0 < segmentLength p i := segmentLength_pos p i h1 h2
  have hLQ : (0:ℚ) < ((segmentLength p i : ℤ) : ℚ) := by exact_mod_cast hL
  have hfloor_le := Int.floor_le ((i.start : ℚ) / ((segmentLength p i : ℤ) : ℚ))
  have hlt_floor := Int.lt_floor_add_one ((i.start : ℚ) / ((segmentLength p i : ℤ) : ℚ))
  have hmul_le : (⌊(i.start : ℚ) / ((segmentLength p i : ℤ) : ℚ)⌋ : ℤ) * segmentLength p i
      ≤ i.start := by
    have : ((⌊(i.start : ℚ) / ((segmentLength p i : ℤ) : ℚ)⌋ : ℤ) : ℚ)
        * ((segmentLength p i : ℤ) : ℚ) ≤ (i.start : ℚ) := by
      calc ((⌊(i.start : ℚ) / ((segmentLength p i : ℤ) : ℚ)⌋ : ℤ) : ℚ)
            * ((segmentLength p i : ℤ) : ℚ)
          ≤ ((i.start : ℚ) / ((segmentLength p i : ℤ) : ℚ))
            * ((segmentLength p i : ℤ) : ℚ) :=
            mul_le_mul_of_nonneg_right hfloor_le hLQ.le
        _ = (i.start : ℚ) := div_mul_cancel₀ _ (ne_of_gt hLQ)
    exact_mod_cast this
  have hlt_mul : i.start
      < ((⌊(i.start : ℚ) / ((segmentLength p i : ℤ) : ℚ)⌋ : ℤ) + 1) * segmentLength p i := by
    have : (i.start : ℚ)
        < (((⌊(i.start : ℚ) / ((segmentLength p i : ℤ) : ℚ)⌋ : ℤ) : ℚ) + 1)
          * ((segmentLength p i : ℤ) : ℚ) := by
      calc (i.start : ℚ)
          = ((i.start : ℚ) / ((segmentLength p i : ℤ) : ℚ))
            * ((segmentLength p i : ℤ) : ℚ) := (div_mul_cancel₀ _ (ne_of_gt hLQ)).symm
        _ < (((⌊(i.start : ℚ) / ((segmentLength p i : ℤ) : ℚ)⌋ : ℤ) : ℚ) + 1)
            * ((segmentLength p i : ℤ) : ℚ) := mul_lt_mul_of_pos_right hlt_floor hLQ
    exact_mod_cast this
  refine ⟨?_, ?_, ?_, ?_, ?_⟩
  · simp [getSectionInterval]
  · simp only [getSectionInterval]
  · refine ⟨⌊(i.start : ℚ) / ((segmentLength p i : ℤ) : ℚ)⌋ - 2, ?_⟩
    simp only [getSectionInterval]
    ring
  · simp only [getSectionInterval]
    linarith
  · simp only [getSectionInterval]
    linarith

/-- Witness for `c3_section_geometry` at concrete parameters and interval. -/
theorem c3_section_geometry_witness :
    (0:ℤ) < 5 ∧ (0:ℤ) < 25
    ∧ ((getSectionInterval ⟨5, 25, none⟩ ⟨100000000, 160000000⟩).start
          = ⌊((100000000 : ℤ) : ℚ)
                / ((segmentLength ⟨5, 25, none⟩ ⟨100000000, 160000000⟩ : ℤ) : ℚ)⌋
              * segmentLength ⟨5, 25, none⟩ ⟨100000000, 160000000⟩
            - 2 * segmentLength ⟨5, 25, none⟩ ⟨100000000, 160000000⟩
      ∧ (getSectionInterval ⟨5, 25, none⟩ ⟨100000000, 160000000⟩).stop
          = (getSectionInterval ⟨5, 25, none⟩ ⟨100000000, 160000000⟩).start
            + 4 * segmentLength ⟨5, 25, none⟩ ⟨100000000, 160000000⟩
      ∧ (∃ k : ℤ, (getSectionInterval ⟨5, 25, none⟩ ⟨100000000, 160000000⟩).start
          = k * segmentLength ⟨5, 25, none⟩ ⟨100000000, 160000000⟩)
      ∧ (getSectionInterval ⟨5, 25, none⟩ ⟨100000000, 160000000⟩).start
            + 2 * segmentLength ⟨5, 25, none⟩ ⟨100000000, 160000000⟩ ≤ 100000000
      ∧ (100000000:ℤ) < (getSectionInterval ⟨5, 25, none⟩ ⟨100000000, 160000000⟩).start
            + 3 * segmentLength ⟨5, 25, none⟩ ⟨100000000, 160000000⟩) :=
  ⟨by norm_num, by norm_num,
    c3_section_geometry ⟨5, 25, none⟩ ⟨100000000, 160000000⟩ (by norm_num) (by norm_num)⟩

/-- C5: `segmentLength` is always minSegment times an integral power of two,
and is monotonically non-decreasing in the interval length. -/
theorem c5_power_of_two_monotone (p : DataParams) (i j : Interval')
    (h1 : 0 < p.archiveIntervalMinutes) (h2 : 0 < p.minDataPoints)
    (hi : i.start < i.stop) (hj : j.start < j.stop)
    (hle : i.stop - i.start ≤ j.stop - j.start) :
    (∃ n : ℕ, segmentLength p i
        = p.archiveIntervalMinutes * 60000 * (p.minDataPoints * 2) * 2 ^ n)
    ∧ segmentLength p i ≤ segmentLength p j := by
  have hm := minSegmentOf_pos p h1 h2
  constructor
  · refine ⟨(max 0 (Int.clog 2 ((i.stop - i.start : ℚ) / (minSegmentOf p : ℚ)))).toNat, ?_⟩
    rw [segmentLength_eq, minSegmentOf]
  · rw [segmentLength_eq, segmentLength_eq]
    have hqi : (0:ℚ) < (i.stop - i.start : ℚ) / (minSegmentOf p : ℚ) := by
      apply div_pos
      · have : (0:ℤ) < i.stop - i.start := by omega
        exact_mod_cast this
      · exact_mod_cast hm
    have hmQ : (0:ℚ) < (minSegmentOf p : ℚ) := by exact_mod_cast hm
    have hqle : (i.stop - i.start : ℚ) / (minSegmentOf p : ℚ)
        ≤ (j.stop - j.start : ℚ) / (minSegmentOf p : ℚ) := by
      apply (div_le_div_iff_of_pos_right hmQ).mpr
      have : ((i.stop - i.start : ℤ) : ℚ) ≤ ((j.stop - j.start : ℤ) : ℚ) := by
        exact_mod_cast hle
      push_cast at this
      linarith
    have hclog : Int.clog 2 ((i.stop - i.start : ℚ) / (minSegmentOf p : ℚ))
        ≤ Int.clog 2 ((j.stop - j.start : ℚ) / (minSegmentOf p : ℚ)) :=
      Int.clog_mono_right hqi hqle
    have hmax := max_le_max (le_refl (0:ℤ)) hclog
    have htoNat := Int.toNat_le_toNat hmax
    have hpow : (2:ℤ) ^ (max 0 (Int.clog 2 ((i.stop - i.start : ℚ)
          / (minSegmentOf p : ℚ)))).toNat
        ≤ (2:ℤ) ^ (max 0 (Int.clog 2 ((j.stop - j.start : ℚ)
          / (minSegmentOf p : ℚ)))).toNat :=
      pow_le_pow_right₀ one_le_two htoNat
    exact mul_le_mul_of_nonneg_left hpow hm.le

/-- Witness for `c5_power_of_two_monotone` at concrete parameters. -/
theorem c5_power_of_two_monotone_witness :
    (0:ℤ) < 5 ∧ (0:ℤ) < 25 ∧ (0:ℤ) < 20000000 ∧ (0:ℤ) < 60000000
    ∧ (20000000:ℤ) - 0 ≤ (60000000:ℤ) - 0
    ∧ ((∃ n : ℕ, segmentLength ⟨5, 25, none⟩ ⟨0, 20000000⟩
          = 5 * 60000 * (25 * 2) * 2 ^ n)
      ∧ segmentLength ⟨5, 25, none⟩ ⟨0, 20000000⟩
          ≤ segmentLength ⟨5, 25, none⟩ ⟨0, 60000000⟩) :=
  ⟨by norm_num, by norm_num, by norm_num, by norm_num, by norm_num,
    c5_power_of_two_monotone ⟨5, 25, none⟩ ⟨0, 20000000⟩ ⟨0, 60000000⟩
      (by norm_num) (by norm_num) (by norm_num) (by norm_num) (by norm_num)⟩

/-! ## Debouncing and supersession -/

theorem dfRun_append (s : DFState) (es fs : List DFEvent) :
    dfRun s (es ++ fs) = dfRun (dfRun s es) fs :=
  List.foldl_append dfStep s es fs

theorem dvRun_append (s : DVState) (es fs : List DVEvent) :
    dvRun s (es ++ fs) = dvRun (dvRun s es) fs :=
  List.foldl_append dvStep s es fs

/-- A burst of `request` events starting from a freshly armed state keeps the
shape (tracked target = armed timer target, no section data, nothing in
flight) and leaves the machine tracking the last request of the burst. -/
theorem dfRun_request_burst (ds : List Interval') (t : Interval') :
    dfRun ⟨some t, none, some t, []⟩ (ds.map DFEvent.request)
      = ⟨some (ds.foldl (fun _ d => d) t), none, some (ds.foldl (fun _ d => d) t), []⟩ := by
  induction ds generalizing t with
  | nil => rfl
  | cons d tl ih =>
    have hstep : dfStep ⟨some t, none, some t, []⟩ (DFEvent.request d)
        = ⟨some d, none, some d, []⟩ := by
      by_cases h : t = d
      · subst h
        simp [dfStep]
      · simp [dfStep, h]
    have hone : dfRun ⟨some t, none, some t, []⟩ ((d :: tl).map DFEvent.request)
        = dfRun ⟨some d, none, some d, []⟩ (tl.map DFEvent.request) := by
      show dfRun (dfStep ⟨some t, none, some t, []⟩ (DFEvent.request d))
          (tl.map DFEvent.request) = _
      rw [hstep]
    rw [hone, ih d]
    rfl

/-- Folding the constant-update function over a nonempty list yields the last
element. -/
theorem foldl_const_getLast :
    ∀ (ds : List Interval') (t t0 : Interval'),
      ds.getLast? = some t → ds.foldl (fun _ d => d) t0 = t := by
  intro ds
  induction ds with
  | nil =>
    intro t t0 h
    simp at h
  | cons d tl ih =>
    intro t t0 h
    cases tl with
    | nil =>
      simp only [List.getLast?_singleton, Option.some.injEq] at h
      subst h
      rfl
    | cons e tl2 =>
      have h' : (e :: tl2).getLast? = some t := by
        rw [List.getLast?_cons_cons] at h
        exact h
      exact ih t d h'

/-- C2: Debounce: a repeated `request` whose target equals the tracked target
changes nothing (the armed timer is kept); a `request` with a different
target cancels the old timer and arms a new one for the new target; and a
burst of requests inside the debounce window (no timer firing in between)
followed by the timer firing and the load completing produces exactly one
load, for the last target requested. -/
theorem c2_debounce (ds : List Interval') (t : Interval')
    (hlast : ds.getLast? = some t) :
    (∀ s u, s.sectionInterval = some u → dfStep s (DFEvent.request u) = s)
    ∧ (∀ s u, s.sectionInterval ≠ some u →
        (dfStep s (DFEvent.request u)).timer = some u
        ∧ (dfStep s (DFEvent.request u)).sectionInterval = some u)
    ∧ (dfRun dfInit (ds.map DFEvent.request)).inflight = []
    ∧ (dfRun dfInit (ds.map DFEvent.request)).timer = some t
    ∧ (dfRun dfInit (ds.map DFEvent.request ++ [DFEvent.fire])).inflight = [t]
    ∧ (dfRun dfInit
          (ds.map DFEvent.request ++ [DFEvent.fire, DFEvent.complete t])).sectionData
        = some t := by
  obtain ⟨d, tl, rfl⟩ : ∃ d tl, ds = d :: tl := by
    cases ds with
    | nil => simp at hlast
    | cons d tl => exact ⟨d, tl, rfl⟩
  have hfirst : dfStep dfInit (DFEvent.request d) = ⟨some d, none, some d, []⟩ := by
    simp [dfStep, dfInit]
  have hfold : tl.foldl (fun _ d => d) d = t := by
    have h := foldl_const_getLast (d :: tl) t d hlast
    simpa using h
  have hburst : dfRun dfInit ((d :: tl).map DFEvent.request)
      = ⟨some t, none, some t, []⟩ := by
    have hone : dfRun dfInit ((d :: tl).map DFEvent.request)
        = dfRun ⟨some d, none, some d, []⟩ (tl.map DFEvent.request) := by
      show dfRun (dfStep dfInit (DFEvent.request d)) (tl.map DFEvent.request) = _
      rw [hfirst]
    rw [hone, dfRun_request_burst, hfold]
  have hfire : dfRun dfInit ((d :: tl).map DFEvent.request ++ [DFEvent.fire])
      = ⟨some t, none, none, [t]⟩ := by
    rw [dfRun_append, hburst]
    rfl
  have hcomplete : dfRun dfInit
        ((d :: tl).map DFEvent.request ++ [DFEvent.fire, DFEvent.complete t])
      = ⟨some t, some t, none, []⟩ := by
    rw [show [DFEvent.fire, DFEvent.complete t]
        = [DFEvent.fire] ++ [DFEvent.complete t] from rfl,
      ← List.append_assoc, dfRun_append, hfire]
    simp [dfRun, dfStep]
  refine ⟨?_, ?_, ?_, ?_, ?_, ?_⟩
  · intro s u h
    simp [dfStep, h]
  · intro s u h
    simp [dfStep, h]
  · rw [hburst]
  · rw [hburst]
  · rw [hfire]
  · rw [hcomplete]

/-- Witness for `c2_debounce`: a two-request burst to distinct targets. -/
theorem c2_debounce_witness :
    ([⟨0, 4⟩, ⟨4, 8⟩] : List Interval').getLast? = some ⟨4, 8⟩
    ∧ ((∀ s u, s.sectionInterval = some u → dfStep s (DFEvent.request u) = s)
      ∧ (∀ s u, s.sectionInterval ≠ some u →
          (dfStep s (DFEvent.request u)).timer = some u
          ∧ (dfStep s (DFEvent.request u)).sectionInterval = some u)
      ∧ (dfRun dfInit (([⟨0, 4⟩, ⟨4, 8⟩] : List Interval').map DFEvent.request)).inflight = []
      ∧ (dfRun dfInit (([⟨0, 4⟩, ⟨4, 8⟩] : List Interval').map DFEvent.request)).timer
          = some ⟨4, 8⟩
      ∧ (dfRun dfInit (([⟨0, 4⟩, ⟨4, 8⟩] : List Interval').map DFEvent.request
            ++ [DFEvent.fire])).inflight = [⟨4, 8⟩]
      ∧ (dfRun dfInit (([⟨0, 4⟩, ⟨4, 8⟩] : List Interval').map DFEvent.request
            ++ [DFEvent.fire, DFEvent.complete ⟨4, 8⟩])).sectionData = some ⟨4, 8⟩) :=
  ⟨by decide, c2_debounce [⟨0, 4⟩, ⟨4, 8⟩] ⟨4, 8⟩ (by decide)⟩

/-- C1: Supersession.  In `datafetcher.js` the claim fails: after
`request A; A's timer fires; request B; A's fetch resolves`,
`this._section` holds the superseded section `A`'s data while
`this._sectionInterval` designates `B`, so subsequent `getWideData` calls
serve `A`'s stale data — the unconditional `this._section = section`
assignment overwrites state with the superseded section.  The
`dataview.js` copy, as the spec describes, drops the stale completion
(`if (this.nextDataBlock !== target) return`): on the analogous schedule the
current block stays unset until the newer block's own load completes. -/
theorem c1_supersession_code_bug :
    (dfRun dfInit
        [DFEvent.request ⟨0, 4⟩, DFEvent.fire, DFEvent.request ⟨4, 8⟩,
          DFEvent.complete ⟨0, 4⟩]).sectionData = some ⟨0, 4⟩
    ∧ (dfRun dfInit
        [DFEvent.request ⟨0, 4⟩, DFEvent.fire, DFEvent.request ⟨4, 8⟩,
          DFEvent.complete ⟨0, 4⟩]).sectionInterval = some ⟨4, 8⟩
    ∧ (⟨0, 4⟩ : Interval') ≠ ⟨4, 8⟩
    ∧ (dvRun dvInit
        [DVEvent.request ⟨0, 4⟩, DVEvent.fire, DVEvent.request ⟨4, 8⟩,
          DVEvent.complete (0, ⟨0, 4⟩)]).currentDataBlock = none
    ∧ (dvRun dvInit
        [DVEvent.request ⟨0, 4⟩, DVEvent.fire, DVEvent.request ⟨4, 8⟩,
          DVEvent.complete (0, ⟨0, 4⟩), DVEvent.fire,
          DVEvent.complete (1, ⟨4, 8⟩)]).currentDataBlock = some (1, ⟨4, 8⟩) := by
  decide

/-! ## Cache eviction -/

theorem fetchSegment_none_miss (cache : List Interval') (i : Interval')
    (h : i ∉ cache) (hlen : cache.length ≠ 100) :
    fetchSegment none cache i = (cache ++ [i], true) := by
  simp [fetchSegment, h, hlen]

theorem fetchSegment_none_miss_full (cache : List Interval') (i : Interval')
    (h : i ∉ cache) (hlen : cache.length = 100) :
    fetchSegment none cache i = (cache.drop 50 ++ [i], true) := by
  simp [fetchSegment, h, hlen]

/-- If the cache never reaches 100 entries during a run of fresh keys, every
key is appended and nothing is evicted. -/
theorem fetchRun_no_evict :
    ∀ (ks : List Interval') (cache : List Interval'),
      (∀ k ∈ ks, k ∉ cache) → ks.Nodup → cache.length + ks.length ≤ 100 →
      fetchRun none cache ks = cache ++ ks := by
  intro ks
  induction ks with
  | nil =>
    intro cache _ _ _
    simp [fetchRun]
  | cons k tl ih =>
    intro cache hnotin hnodup hlen
    have hk : k ∉ cache := hnotin k (by simp)
    have hlen' : cache.length ≠ 100 := by
      simp only [List.length_cons] at hlen
      omega
    have hone : fetchRun none cache (k :: tl) = fetchRun none (cache ++ [k]) tl := by
      show fetchRun none (fetchSegment none cache k).1 tl = _
      rw [fetchSegment_none_miss cache k hk hlen']
    rw [hone, ih (cache ++ [k]) ?_ ?_ ?_]
    · simp
    · intro x hx
      simp only [List.mem_append, List.mem_singleton]
      rintro (hc | rfl)
      · exact hnotin x (by simp [hx]) hc
      · exact (List.nodup_cons.mp hnodup).1 hx
    · exact (List.nodup_cons.mp hnodup).2
    · simp only [List.length_append, List.length_singleton]
      simp only [List.length_cons] at hlen
      omega

/-- Inserting 101 pairwise-distinct keys into an empty cache: the first 100
fill the cache untrimmed; the 101st finds `length === 100`, drops the oldest
50, and is appended, leaving the 51 most recent keys. -/
theorem fetchRun_hundred_one (ks : List Interval') (hlen : ks.length = 101)
    (hnd : ks.Nodup) :
    fetchRun none [] ks = ks.drop 50 ∧ (fetchRun none [] ks).length = 51 := by
  obtain ⟨front, last, rfl⟩ : ∃ front last, ks = front ++ [last] := by
    rcases List.eq_nil_or_concat ks with rfl | ⟨front, last, h⟩
    · simp at hlen
    · exact ⟨front, last, by simpa [List.concat_eq_append] using h⟩
  have hfrontlen : front.length = 100 := by
    simp only [List.length_append, List.length_singleton] at hlen
    omega
  have hfront_nodup : front.Nodup := hnd.of_append_left
  have hlast_notin : last ∉ front := by
    intro hmem
    have hdisj := (List.nodup_append.mp hnd).2.2
    exact hdisj hmem (by simp)
  have hrun_front : fetchRun none [] front = front := by
    have h := fetchRun_no_evict front [] (by simp) hfront_nodup (by simp [hfrontlen])
    simpa using h
  have hrun : fetchRun none [] (front ++ [last]) = front.drop 50 ++ [last] := by
    rw [fetchRun, List.foldl_append]
    have h1 : front.foldl (fun c i => (fetchSegment none c i).1) [] = front := hrun_front
    rw [h1]
    show (fetchSegment none front last).1 = _
    rw [fetchSegment_none_miss_full front last hlast_notin hfrontlen]
  constructor
  · rw [hrun, List.drop_append_of_le_length (by omega)]
  · rw [hrun]
    simp [hfrontlen]

/-- The 101 segment keys `[n, n+1)`, `n = 0..100`, are pairwise distinct. -/
theorem rangeKeys101_nodup :
    ((List.range 101).map fun (n : ℕ) => (⟨(n : ℤ), (n : ℤ) + 1⟩ : Interval')).Nodup := by
  refine List.Nodup.map ?_ (List.nodup_range 101)
  intro a b hab
  have h := congrArg Interval'.start hab
  simpa using h

/-- C6 (amended): starting from an empty segment cache, inserting 101
distinct segment keys (each a cache miss that adds an entry) leaves the cache
with exactly 51 live entries — not 50 — and those entries are exactly the 51
most recently inserted keys.  The trim in `_fetchSegment` runs before the
push (`if (length === 100) slice(50)` then `push`), so the 101st insertion
trims to 50 and then appends. -/
theorem c6_cache_eviction (ks : List Interval') (hlen : ks.length = 101)
    (hnd : ks.Nodup) :
    fetchRun none [] ks = ks.drop 50 ∧ (fetchRun none [] ks).length = 51 :=
  fetchRun_hundred_one ks hlen hnd

/-- Witness for `c6_cache_eviction` on the concrete keys `[n, n+1)`. -/
theorem c6_cache_eviction_witness :
    ((List.range 101).map fun (n : ℕ) => (⟨(n : ℤ), (n : ℤ) + 1⟩ : Interval')).length = 101
    ∧ ((List.range 101).map fun (n : ℕ) => (⟨(n : ℤ), (n : ℤ) + 1⟩ : Interval')).Nodup
    ∧ (fetchRun none [] ((List.range 101).map fun (n : ℕ) => (⟨(n : ℤ), (n : ℤ) + 1⟩ : Interval'))
          = ((List.range 101).map fun (n : ℕ) => (⟨(n : ℤ), (n : ℤ) + 1⟩ : Interval')).drop 50
      ∧ (fetchRun none []
          ((List.range 101).map fun (n : ℕ) => (⟨(n : ℤ), (n : ℤ) + 1⟩ : Interval'))).length = 51) :=
  ⟨by simp, rangeKeys101_nodup,
    c6_cache_eviction ((List.range 101).map fun (n : ℕ) => (⟨(n : ℤ), (n : ℤ) + 1⟩ : Interval'))
      (by simp) rangeKeys101_nodup⟩

/-- C6 counterexample: on the 101 pairwise-distinct keys `[n, n+1)` the cache
afterwards holds 51 live entries, refuting the claimed "exactly 50". -/
theorem c6_cache_eviction_counterexample :
    ((List.range 101).map fun (n : ℕ) => (⟨(n : ℤ), (n : ℤ) + 1⟩ : Interval')).length = 101
    ∧ ((List.range 101).map fun (n : ℕ) => (⟨(n : ℤ), (n : ℤ) + 1⟩ : Interval')).Nodup
    ∧ (fetchRun none []
        ((List.range 101).map fun (n : ℕ) => (⟨(n : ℤ), (n : ℤ) + 1⟩ : Interval'))).length = 51
    ∧ ¬((fetchRun none []
        ((List.range 101).map fun (n : ℕ) => (⟨(n : ℤ), (n : ℤ) + 1⟩ : Interval'))).length = 50) := by
  have hlen : ((List.range 101).map fun (n : ℕ) => (⟨(n : ℤ), (n : ℤ) + 1⟩ : Interval')).length = 101 := by
    simp
  have h := fetchRun_hundred_one _ hlen rangeKeys101_nodup
  refine ⟨hlen, rangeKeys101_nodup, h.2, ?_⟩
  rw [h.2]
  norm_num

/-! ## Tail padding of short responses -/

/-- C7: Tail padding: when the server responds successfully with `n` values
and `n` is less than the expected count `floor((end-start)/aggregateInterval)`,
the segment still resolves (`Except.ok`, not an error), the assembled segment
has exactly the expected length, indices `0..n-1` hold the returned values
unchanged (no front padding), and every index from `n` to `expected - 1`
holds the null marker. -/
theorem c7_tail_padding (i : Interval') (aggregateInterval : ℚ)
    (values : List (Option ℚ))
    (hshort : values.length < (expectedPoints i aggregateInterval).toNat) :
    assembleSegment i aggregateInterval (Except.ok values)
        = Except.ok (values
            ++ List.replicate
                ((expectedPoints i aggregateInterval).toNat - values.length) none)
    ∧ (values ++ List.replicate
          ((expectedPoints i aggregateInterval).toNat - values.length) none).length
        = (expectedPoints i aggregateInterval).toNat
    ∧ (∀ j : ℕ, j < values.length →
        (values ++ List.replicate
            ((expectedPoints i aggregateInterval).toNat - values.length) none)[j]?
          = values[j]?)
    ∧ (∀ j : ℕ, values.length ≤ j → j < (expectedPoints i aggregateInterval).toNat →
        (values ++ List.replicate
            ((expectedPoints i aggregateInterval).toNat - values.length) none)[j]?
          = some none) := by
  refine ⟨?_, ?_, ?_, ?_⟩
  · simp only [assembleSegment, setLength]
    rw [List.take_of_length_le (le_of_lt hshort)]
  · simp only [List.length_append, List.length_replicate]
    omega
  · intro j hj
    rw [List.getElem?_append, if_pos hj]
  · intro j hj1 hj2
    rw [List.getElem?_append_right hj1]
    have : j - values.length
        < (expectedPoints i aggregateInterval).toNat - values.length := by omega
    simp [List.getElem?_replicate, this]

/-- Witness for `c7_tail_padding`: 48 returned values against an expected
length of 50 give a length-50 segment whose last two indices (48 and 49,
in particular index 49) are null and indices 0-47 are unchanged. -/
theorem c7_tail_padding_witness :
    (List.replicate 48 (some (1:ℚ))).length < (expectedPoints ⟨0, 50⟩ 1).toNat
    ∧ (assembleSegment ⟨0, 50⟩ 1 (Except.ok (List.replicate 48 (some (1:ℚ))))
          = Except.ok (List.replicate 48 (some (1:ℚ))
              ++ List.replicate
                  ((expectedPoints ⟨0, 50⟩ 1).toNat
                    - (List.replicate 48 (some (1:ℚ))).length) none)
      ∧ (List.replicate 48 (some (1:ℚ))
            ++ List.replicate
                ((expectedPoints ⟨0, 50⟩ 1).toNat
                  - (List.replicate 48 (some (1:ℚ))).length) none).length
          = (expectedPoints ⟨0, 50⟩ 1).toNat
      ∧ (∀ j : ℕ, j < (List.replicate 48 (some (1:ℚ))).length →
          (List.replicate 48 (some (1:ℚ))
              ++ List.replicate
                  ((expectedPoints ⟨0, 50⟩ 1).toNat
                    - (List.replicate 48 (some (1:ℚ))).length) none)[j]?
            = (List.replicate 48 (some (1:ℚ)))[j]?)
      ∧ (∀ j : ℕ, (List.replicate 48 (some (1:ℚ))).length ≤ j →
          j < (expectedPoints ⟨0, 50⟩ 1).toNat →
          (List.replicate 48 (some (1:ℚ))
              ++ List.replicate
                  ((expectedPoints ⟨0, 50⟩ 1).toNat
                    - (List.replicate 48 (some (1:ℚ))).length) none)[j]?
            = some none)) :=
  ⟨by norm_num [expectedPoints, Int.toNat_ofNat],
    c7_tail_padding ⟨0, 50⟩ 1 (List.replicate 48 (some (1:ℚ)))
      (by norm_num [expectedPoints, Int.toNat_ofNat])⟩

/-! ## Boundary interpolation -/

/-- C8 (amended): if the sample immediately before the sliced window and the
first sample of the slice both exist, are non-null, have non-zero values (the
code's truthiness tests) and distinct times, a synthetic point is prepended
exactly at `requestedInterval.start` whose value is the linear interpolation
`v0 + (v1-v0)*(start-t0)/(t1-t0)`; symmetrically a synthetic point at
`requestedInterval.end` is appended from the last sliced sample and the
sample immediately after the slice. -/
theorem c8_boundary_interpolation (b : DataBlock) (req : QInterval)
    (t0 v0 t1 v1 ta va tl vl : ℚ)
    (hb1 : firstBeforeOf b req = some (t0, some v0))
    (hh : (slicedData b req).head? = some (t1, some v1))
    (hv0 : v0 ≠ 0) (hv1 : v1 ≠ 0) (ht01 : t0 ≠ t1)
    (ha : firstAfterOf b req = some (ta, some va))
    (hl : (slicedData b req).getLast? = some (tl, some vl))
    (hva : va ≠ 0) (hvl : vl ≠ 0) (htal : ta ≠ tl) :
    displayDataOf b req
      = (req.start, some (v0 + (v1 - v0) * (req.start - t0) / (t1 - t0)))
          :: slicedData b req
            ++ [(req.stop, some (vl + (va - vl) * (req.stop - tl) / (ta - tl)))] := by
  have h10 : t1 - t0 ≠ 0 := sub_ne_zero.mpr (Ne.symm ht01)
  have hleft : leftPointOf b req
      = [(req.start, some (v0 + (v1 - v0) * (req.start - t0) / (t1 - t0)))] := by
    simp only [leftPointOf, hb1, hh]
    rw [if_pos ⟨hv1, hv0⟩]
    have hval : v1 - (v1 - v0) / (t1 - t0) * (t1 - req.start)
        = v0 + (v1 - v0) * (req.start - t0) / (t1 - t0) := by
      field_simp
      ring
    rw [hval]
  have hright : rightPointOf b req
      = [(req.stop, some (vl + (va - vl) * (req.stop - tl) / (ta - tl)))] := by
    simp only [rightPointOf, ha, hl]
    rw [if_pos ⟨hvl, hva⟩]
    rw [div_mul_eq_mul_div]
  rw [displayDataOf, hleft, hright]
  rfl

theorem ceil_half : (⌈(1/2 : ℚ)⌉ : ℤ) = 1 := by
  rw [Int.ceil_eq_iff]
  norm_num

theorem floor_five_half : (⌊(5/2 : ℚ)⌋ : ℤ) = 2 := by
  rw [Int.floor_eq_iff]
  norm_num

theorem firstIndexOf_ex8 : firstIndexOf blockEx8 reqEx8 = 1 := by
  simp only [firstIndexOf, blockEx8, reqEx8]
  norm_num [ceil_half]

theorem lastIndexOf_ex8 : lastIndexOf blockEx8 reqEx8 = 2 := by
  simp only [lastIndexOf, blockEx8, reqEx8]
  norm_num [floor_five_half]

theorem slicedData_ex8 : slicedData blockEx8 reqEx8 = [(1, some 5), (2, some 6)] := by
  simp only [slicedData, firstIndexOf_ex8, lastIndexOf_ex8]
  rfl

theorem firstBeforeOf_ex8 : firstBeforeOf blockEx8 reqEx8 = some (0, some 2) := by
  simp only [firstBeforeOf, firstIndexOf_ex8, slicedData_ex8]
  rfl

theorem firstAfterOf_ex8 : firstAfterOf blockEx8 reqEx8 = some (3, some 7) := by
  simp only [firstAfterOf, lastIndexOf_ex8, slicedData_ex8]
  rfl

/-- Witness for `c8_boundary_interpolation` on `blockEx8`/`reqEx8`. -/
theorem c8_boundary_interpolation_witness :
    firstBeforeOf blockEx8 reqEx8 = some (0, some 2)
    ∧ (slicedData blockEx8 reqEx8).head? = some (1, some 5)
    ∧ (2:ℚ) ≠ 0 ∧ (5:ℚ) ≠ 0 ∧ (0:ℚ) ≠ 1
    ∧ firstAfterOf blockEx8 reqEx8 = some (3, some 7)
    ∧ (slicedData blockEx8 reqEx8).getLast? = some (2, some 6)
    ∧ (7:ℚ) ≠ 0 ∧ (6:ℚ) ≠ 0 ∧ (3:ℚ) ≠ 2
    ∧ displayDataOf blockEx8 reqEx8
        = (reqEx8.start, some (2 + (5 - 2) * (reqEx8.start - 0) / (1 - 0)))
            :: slicedData blockEx8 reqEx8
              ++ [(reqEx8.stop, some (6 + (7 - 6) * (reqEx8.stop - 2) / (3 - 2)))] := by
  have hhead : (slicedData blockEx8 reqEx8).head? = some (1, some 5) := by
    rw [slicedData_ex8]
    rfl
  have hlastp : (slicedData blockEx8 reqEx8).getLast? = some (2, some 6) := by
    rw [slicedData_ex8]
    rfl
  exact ⟨firstBeforeOf_ex8, hhead, by norm_num, by norm_num, by norm_num,
    firstAfterOf_ex8, hlastp, by norm_num, by norm_num, by norm_num,
    c8_boundary_interpolation blockEx8 reqEx8 0 2 1 5 3 7 2 6
      firstBeforeOf_ex8 hhead (by norm_num) (by norm_num) (by norm_num)
      firstAfterOf_ex8 hlastp (by norm_num) (by norm_num) (by norm_num)⟩

theorem firstIndexOf_ex8c : firstIndexOf blockEx8c reqEx8 = 1 := by
  simp only [firstIndexOf, blockEx8c, reqEx8]
  norm_num [ceil_half]

theorem lastIndexOf_ex8c : lastIndexOf blockEx8c reqEx8 = 2 := by
  simp only [lastIndexOf, blockEx8c, reqEx8]
  norm_num [floor_five_half]

theorem slicedData_ex8c : slicedData blockEx8c reqEx8 = [(1, some 5), (2, some 6)] := by
  simp only [slicedData, firstIndexOf_ex8c, lastIndexOf_ex8c]
  rfl

theorem firstBeforeOf_ex8c : firstBeforeOf blockEx8c reqEx8 = some (0, some 0) := by
  simp only [firstBeforeOf, firstIndexOf_ex8c, slicedData_ex8c]
  rfl

theorem firstAfterOf_ex8c : firstAfterOf blockEx8c reqEx8 = some (3, some 7) := by
  simp only [firstAfterOf, lastIndexOf_ex8c, slicedData_ex8c]
  rfl

/-- C8 counterexample: on `blockEx8c` the sample before the window exists and
is non-null (value 0) and the first sliced sample is non-null, yet no
synthetic point is prepended at `requestedInterval.start`, because the
source's truthiness test rejects the value 0. -/
theorem c8_boundary_interpolation_counterexample :
    firstBeforeOf blockEx8c reqEx8 = some (0, some 0)
    ∧ (slicedData blockEx8c reqEx8).head? = some (1, some 5)
    ∧ displayDataOf blockEx8c reqEx8
        = slicedData blockEx8c reqEx8
          ++ [(reqEx8.stop, some (6 + (7 - 6) / (3 - 2) * (reqEx8.stop - 2)))]
    ∧ (∀ point ∈ displayDataOf blockEx8c reqEx8, point.1 ≠ reqEx8.start) := by
  have hhead : (slicedData blockEx8c reqEx8).head? = some (1, some 5) := by
    rw [slicedData_ex8c]
    rfl
  have hlastp : (slicedData blockEx8c reqEx8).getLast? = some (2, some 6) := by
    rw [slicedData_ex8c]
    rfl
  have hleft : leftPointOf blockEx8c reqEx8 = [] := by
    simp only [leftPointOf, firstBeforeOf_ex8c, hhead]
    rw [if_neg]
    norm_num
  have hright : rightPointOf blockEx8c reqEx8
      = [(reqEx8.stop, some (6 + (7 - 6) / (3 - 2) * (reqEx8.stop - 2)))] := by
    simp only [rightPointOf, firstAfterOf_ex8c, hlastp]
    rw [if_pos]
    norm_num
  have hdisp : displayDataOf blockEx8c reqEx8
      = slicedData blockEx8c reqEx8
        ++ [(reqEx8.stop, some (6 + (7 - 6) / (3 - 2) * (reqEx8.stop - 2)))] := by
    rw [displayDataOf, hleft, hright]
    rfl
  refine ⟨firstBeforeOf_ex8c, hhead, hdisp, ?_⟩
  intro point hmem
  rw [hdisp, slicedData_ex8c] at hmem
  simp only [List.mem_append, List.mem_cons, List.mem_singleton,
    List.not_mem_nil, or_false] at hmem
  rcases hmem with (rfl | rfl) | rfl
  · simp only [reqEx8]
    norm_num
  · simp only [reqEx8]
    norm_num
  · simp only [reqEx8]
    norm_num

/-- C9: a sample whose numeric value is 0 is treated like a null sample at
the window boundaries: if the boundary-adjacent sample inside the slice or
its neighbour outside the slice has value 0, the synthetic boundary point at
that edge is omitted — the neighbour tests are truthiness checks, not null
checks. -/
theorem c9_zero_truthiness (b : DataBlock) (req : QInterval) :
    (∀ t0 v0 t1 v1, firstBeforeOf b req = some (t0, v0)
      → (slicedData b req).head? = some (t1, v1)
      → (v0 = some 0 ∨ v1 = some 0) → leftPointOf b req = [])
    ∧ (∀ ta va tl vl, firstAfterOf b req = some (ta, va)
      → (slicedData b req).getLast? = some (tl, vl)
      → (va = some 0 ∨ vl = some 0) → rightPointOf b req = [])
    ∧ displayDataOf b req
        = leftPointOf b req ++ slicedData b req ++ rightPointOf b req := by
  refine ⟨?_, ?_, rfl⟩
  · intro t0 v0 t1 v1 h0 h1 hz
    rcases hz with rfl | rfl
    · cases v1 with
      | none => simp [leftPointOf, h0, h1]
      | some w => simp [leftPointOf, h0, h1]
    · cases v0 with
      | none => simp [leftPointOf, h0, h1]
      | some w => simp [leftPointOf, h0, h1]
  · intro ta va tl vl h0 h1 hz
    rcases hz with rfl | rfl
    · cases vl with
      | none => simp [rightPointOf, h0, h1]
      | some w => simp [rightPointOf, h0, h1]
    · cases va with
      | none => simp [rightPointOf, h0, h1]
      | some w => simp [rightPointOf, h0, h1]

theorem firstIndexOf_ex9 : firstIndexOf blockEx9 reqEx8 = 1 := by
  simp only [firstIndexOf, blockEx9, reqEx8]
  norm_num [ceil_half]

theorem lastIndexOf_ex9 : lastIndexOf blockEx9 reqEx8 = 2 := by
  simp only [lastIndexOf, blockEx9, reqEx8]
  norm_num [floor_five_half]

theorem slicedData_ex9 : slicedData blockEx9 reqEx8 = [(1, some 4), (2, some 6)] := by
  simp only [slicedData, firstIndexOf_ex9, lastIndexOf_ex9]
  rfl

theorem firstBeforeOf_ex9 : firstBeforeOf blockEx9 reqEx8 = some (0, some 0) := by
  simp only [firstBeforeOf, firstIndexOf_ex9, slicedData_ex9]
  rfl

/-- Witness for `c9_zero_truthiness`: on `blockEx9` the sample before the
window has value 0, so the left synthetic boundary point is omitted. -/
theorem c9_zero_truthiness_witness :
    firstBeforeOf blockEx9 reqEx8 = some (0, some 0)
    ∧ (slicedData blockEx9 reqEx8).head? = some (1, some 4)
    ∧ leftPointOf blockEx9 reqEx8 = [] := by
  have hhead : (slicedData blockEx9 reqEx8).head? = some (1, some 4) := by
    rw [slicedData_ex9]
    rfl
  exact ⟨firstBeforeOf_ex9, hhead,
    (c9_zero_truthiness blockEx9 reqEx8).1 0 (some 0) 1 (some 4)
      firstBeforeOf_ex9 hhead (Or.inl rfl)⟩

/-! ## Offset mutation corrupts the segment cache key -/

/-- C10: when `dataParams` has an offset, `_fetchSegment` subtracts the
offset from the interval object in place before that same object is pushed
as the cache key; consequently, for every nonzero offset, a second fetch for
the same nominal interval misses the cache (the stored key is the shifted
interval) and issues a second HTTP GET, adding a duplicate entry. -/
theorem c10_offset_cache_key (o : ℤ) (ho : o ≠ 0) (i : Interval') :
    fetchSegment (some o) [] i = ([⟨i.start - o, i.stop - o⟩], true)
    ∧ fetchSegment (some o) [⟨i.start - o, i.stop - o⟩] i
        = ([⟨i.start - o, i.stop - o⟩, ⟨i.start - o, i.stop - o⟩], true) := by
  have hne : i ∉ ([⟨i.start - o, i.stop - o⟩] : List Interval') := by
    intro hmem
    rw [List.mem_singleton] at hmem
    have hstart := congrArg Interval'.start hmem
    simp at hstart
    omega
  constructor
  · simp [fetchSegment]
  · rw [fetchSegment, if_neg hne]
    simp

/-- Witness for `c10_offset_cache_key` with offset 3600000 ms. -/
theorem c10_offset_cache_key_witness :
    (3600000 : ℤ) ≠ 0
    ∧ (fetchSegment (some 3600000) [] ⟨0, 15000000⟩
          = ([⟨0 - 3600000, 15000000 - 3600000⟩], true)
      ∧ fetchSegment (some 3600000)
            [⟨0 - 3600000, 15000000 - 3600000⟩] ⟨0, 15000000⟩
          = ([⟨0 - 3600000, 15000000 - 3600000⟩,
              ⟨0 - 3600000, 15000000 - 3600000⟩], true)) :=
  ⟨by norm_num, c10_offset_cache_key 3600000 (by norm_num) ⟨0, 15000000⟩⟩
